import Mathlib

/-!
Verification of the nblog record-rendering engine (github.com/rkennedy/nblog).

This file gives a shallow embedding of the engine found in `legacy.go`
(the `Handler` chain version, together with the helpers of `recursion.go`),
`json.go` (the `jsonStream` wrapper around jsoniter and the kind-dispatched
attribute writers) and `attrs.go` (`ChainReplace`), and proves or refutes the
frozen claims about it.

Modelling conventions:

* `slog.Value` is the closed variant `Value` below.  Machine `int64`/`uint64`
  values are modelled as `Int`/`Nat` (the engine only formats them, never does
  arithmetic on them), `float64` values as exact rationals, and `time.Time` /
  `time.Duration` as an abstract instant/count (`Int`), with the external
  library formatting routines (`time.Time.Format`, `time.Time.String`,
  `time.Duration.String`, `os.Getpid`, `runtime.CallersFrames`) supplied as
  oracles in an `Env`.
* `math.Pow(2, e)` in the numeric-severity path is kept symbolic as the value
  constructor `Value.vfloatPow2 e`; its textual form is exact whenever the
  exponent is an integer (the only case any settled claim evaluates; for the
  four standard severities the results are the integers 2, 4, 8, 16).
  The real-valued function `scaleLevel` below gives the exact semantics.
* The recursion of `writeNextAttribute`/`writeAttribute`/`writeGroup` is not
  structurally decreasing in Go (a replacement callback may return an
  arbitrarily deep group), so the embedding takes an explicit recursion
  budget `fuel`; one unit is consumed per nesting level.  Go's potential
  non-termination corresponds to exhausting any finite budget; all settled
  claims are evaluated with ample fuel.
* `slog.Value.Resolve` is the identity on every kind modelled here
  (`KindLogValuer` values, which the engine treats as a fatal defect anyway,
  are outside the model), so it is omitted.
* jsoniter's in-memory stream cannot fail on the values modelled here (its
  only failure source is serializing non-finite floats), so the
  `out.Error()` checks of `Handle` never fire and are omitted; `Handle`'s
  observable effect is the list of `Write` calls made on the destination.
-/

namespace Nblog

mutual

/-- `slog.Attr`: a key paired with a `slog.Value`. -/
inductive Attr where
  | mk (key : String) (value : Value)

/-- `slog.Value`: the closed variant of value kinds. -/
inductive Value where
  | vstr (s : String)
  | vint (i : Int)
  | vuint (n : Nat)
  | vfloat (q : ℚ)
  | vfloatPow2 (e : ℚ)
  | vbool (b : Bool)
  | vduration (d : Int)
  | vtime (t : Int)
  | vgroup (members : List Attr)
  | vanyNil
  | vanyLevel (l : Int)

end

def Attr.key : Attr → String
  | ⟨k, _⟩ => k

def Attr.value : Attr → Value
  | ⟨_, v⟩ => v

/-- `a.Equal(slog.Attr{})`: key is empty and the value is the zero `KindAny`
value.  (Group, string, … values never compare equal to the zero value because
their kinds differ.) -/
def isZeroAttr : Attr → Bool
  | ⟨"", .vanyNil⟩ => true
  | _ => false

/-- `ReplaceAttrFunc` from attrs.go. -/
def ReplaceAttrFunc : Type := List String → Attr → Attr

/-- `ChainReplace` from attrs.go: combines two attribute-replacement functions
to call them in sequence, passing the result of one as the input to the next;
a nil function pointer is modelled as `none`. -/
def ChainReplace (repl1 repl2 : Option ReplaceAttrFunc) : ReplaceAttrFunc :=
  match repl1 with
  | none =>
    match repl2 with
    | none => fun _ attr => attr
    | some r2 => r2
  | some r1 =>
    match repl2 with
    | none => r1
    | some r2 => fun groups a => r2 groups (r1 groups a)

/-- slog's level constants. -/
def levelDebug : Int := -4

def levelInfo : Int := 0

def levelWarn : Int := 4

def levelError : Int := 8

/-- `slog.Level.String()`: base label plus a `%+d` suffix for offsets. -/
def plusNum (i : Int) : String :=
  if 0 ≤ i then "+" ++ toString i else toString i

def levelLabel (base : String) (val : Int) : String :=
  if val = 0 then base else base ++ plusNum val

def levelString (l : Int) : String :=
  if l < levelInfo then levelLabel "DEBUG" (l - levelDebug)
  else if l < levelWarn then levelLabel "INFO" (l - levelInfo)
  else if l < levelError then levelLabel "WARN" (l - levelWarn)
  else levelLabel "ERROR" (l - levelError)

/-- The constants of legacy.go. -/
def timeDateTime : String := "2006-01-02 15:04:05"

def timeTimeOnly : String := "15:04:05"

def FullDateFormat : String := timeDateTime ++ ".000"

def TimeOnlyFormat : String := timeTimeOnly ++ ".000"

def PidKey : String := "pid-47482072-7496-40a0-a048-ccfdba4e564e"

def slogTimeKey : String := "time"

def slogLevelKey : String := "level"

def slogMessageKey : String := "msg"

/-- The base configuration owned by the root `Handler` node (destination is
modelled at the `Handle` level as the returned list of writes). -/
structure BaseConfig where
  level : Int
  replaceAttr : Option ReplaceAttrFunc
  timestampFormat : String
  useFullCallerName : Bool
  numericSeverity : Bool

/-- The defaults installed by `New`. -/
def defaultConfig : BaseConfig := ⟨levelInfo, none, FullDateFormat, false, false⟩

/-- The `Handler` struct of legacy.go: either the base node carrying the
configuration, or a frame node carrying `previousHandler` plus the `group` and
`attributes` fields (exactly one of which is populated by the constructors
`withAttrs` / `withGroup`). -/
inductive Handler where
  | base (cfg : BaseConfig)
  | frame (previousHandler : Handler) (group : String) (attributes : List Attr)

/-- `WithAttrs`: no-op on an empty attribute list. -/
def Handler.withAttrs (h : Handler) (attrs : List Attr) : Handler :=
  if attrs.isEmpty then h else .frame h "" attrs

/-- `WithGroup`: no-op on an empty name. -/
def Handler.withGroup (h : Handler) (name : String) : Handler :=
  if name = "" then h else .frame h name []

/-- `baseHandler` from recursion.go: follow `previousHandler` to the root. -/
def baseConfig : Handler → BaseConfig
  | .base cfg => cfg
  | .frame prev _ _ => baseConfig prev

/-- `identityAttribute` from recursion.go. -/
def identityAttribute : ReplaceAttrFunc := fun _ a => a

/-- `getReplaceAttr` from recursion.go. -/
def getReplaceAttr (h : Handler) : ReplaceAttrFunc :=
  match (baseConfig h).replaceAttr with
  | none => identityAttribute
  | some f => f

def getTimestampFormat (h : Handler) : String := (baseConfig h).timestampFormat

def getUseFullCallerName (h : Handler) : Bool := (baseConfig h).useFullCallerName

def getNumericSeverity (h : Handler) : Bool := (baseConfig h).numericSeverity

/-- `Handler.groups` from recursion.go: open group names, root to leaf. -/
def Handler.groups : Handler → List String
  | .base _ => []
  | .frame prev g _ => if g ≠ "" then prev.groups ++ [g] else prev.groups

/-- `slog.Record`: zero time is represented by `0`, an absent program counter
by `0`. -/
structure Record where
  time : Int
  level : Int
  message : String
  pc : Nat
  attrs : List Attr

/-- Oracles for the external collaborators of the engine. -/
structure Env where
  pid : Int
  resolve : Nat → String
  formatTime : String → Int → String
  durationString : Int → String
  timeString : Int → String

/-! ## The jsonStream wrapper (json.go) -/

/-- The observable state of json.go's `jsonStream`: the bytes accumulated in
the underlying jsoniter in-memory stream, plus the `needComma` flag. -/
structure JsonStream where
  buf : String
  needComma : Bool

/-- `jsonStream.WriteRaw` (does not touch `needComma`). -/
def JsonStream.writeRaw (st : JsonStream) (s : String) : JsonStream :=
  ⟨st.buf ++ s, st.needComma⟩

/-- JSON string escaping as performed by jsoniter's `WriteString` (quotes and
backslashes; the development never serializes control characters). -/
def escapeChar (c : Char) : List Char :=
  if c = '\\' then ['\\', '\\'] else if c = '"' then ['\\', '"'] else [c]

def jsonEscape (s : String) : String :=
  ⟨s.data.foldr (fun c acc => escapeChar c ++ acc) []⟩

/-- The quoted, escaped, colon-and-space-terminated field prefix produced by
`jsonStream.WriteObjectField`, without the comma bookkeeping. -/
def fieldStr (label : String) : String :=
  "\"" ++ jsonEscape label ++ "\": "

/-- `jsonStream.WriteObjectField`: comma plus space when a sibling was already
written at this nesting level, then the quoted field name, a colon (from
jsoniter) and a space (`WriteRaw " "`). -/
def JsonStream.writeObjectField (st : JsonStream) (label : String) : JsonStream :=
  ⟨st.buf ++ (if st.needComma then ", " else "") ++ fieldStr label, true⟩

/-- `jsonStream.WriteObjectStart`. -/
def JsonStream.writeObjectStart (st : JsonStream) : JsonStream :=
  ⟨st.buf ++ "\x7b", false⟩

/-- `jsonStream.WriteObjectEnd`. -/
def JsonStream.writeObjectEnd (st : JsonStream) : JsonStream :=
  ⟨st.buf ++ "\x7d", true⟩

/-! ## Textual forms of scalar values -/

/-- Decimal rendering of a float64 held as an exact rational.  Exact for
integral values and for dyadic fractions (every float64 is dyadic); rationals
outside that range cannot arise from a float64 and fall back to the raw
rational form. -/
def dyadicDigits : Nat → Option Nat
  | 1 => some 0
  | n =>
    if _h : n % 2 = 0 ∧ 1 < n then
      match dyadicDigits (n / 2) with
      | some k => some (k + 1)
      | none => none
    else none
  decreasing_by exact Nat.div_lt_self (by omega) (by omega)

def floatString (q : ℚ) : String :=
  if q.den = 1 then toString q.num
  else
    match dyadicDigits q.den with
    | some k =>
      let scaled : Nat := q.num.natAbs * 5 ^ k
      let ip : Nat := scaled / 10 ^ k
      let frac : Nat := scaled % 10 ^ k
      let fracStr : String := String.mk (List.replicate (k - (toString frac).length) '0') ++ toString frac
      (if q.num < 0 then "-" else "") ++ toString ip ++ "." ++ fracStr
    | none => toString q

/-- The textual form of `math.Pow(2, e)`: exact (an integer or dyadic
fraction) when the exponent is an integer; a non-integral exponent yields an
irrational float64 whose decimal form this rational model keeps symbolic (no
settled claim evaluates that branch). -/
def pow2String (e : ℚ) : String :=
  if e.den = 1 then floatString ((2 : ℚ) ^ e.num) else "2^(" ++ toString e ++ ")"

/-- `slog.Value.String()` (used for the synthetic timestamp/pid/level/message
fields): strings are unquoted, numbers decimal, duration/time use their
canonical `String()` forms, a `KindAny` level prints its label, and a group
prints Go's `%v` of an `[]Attr` slice.  The group branch recurses through
replacement-produced values, hence the fuel. -/
def valueString (env : Env) : Nat → Value → String
  | _, .vstr s => s
  | _, .vint i => toString i
  | _, .vuint n => toString n
  | _, .vfloat q => floatString q
  | _, .vfloatPow2 e => pow2String e
  | _, .vbool b => if b then "true" else "false"
  | _, .vduration d => env.durationString d
  | _, .vtime t => env.timeString t
  | _, .vanyNil => "<nil>"
  | _, .vanyLevel l => levelString l
  | 0, .vgroup _ => ""
  | fuel + 1, .vgroup ms =>
    "[" ++ String.intercalate " "
      (ms.map fun a => a.key ++ "=" ++ valueString env fuel a.value) ++ "]"

/-- The JSON form written for a non-group value by the `writeByKind` table of
json.go: `WriteString` for strings, durations and times (quoted, escaped),
`WriteInt64`/`WriteUint64`/`WriteFloat64`/`WriteBool` for numbers and bools,
`WriteVal` for `KindAny` payloads (`nil` marshals to `null`, a `slog.Level`
marshals through its `MarshalJSON` as a quoted label).  Group values never
reach this table (`writeAttribute` dispatches them to `writeGroup` first). -/
def jsonValueString (env : Env) : Value → String
  | .vstr s => "\"" ++ jsonEscape s ++ "\""
  | .vint i => toString i
  | .vuint n => toString n
  | .vfloat q => floatString q
  | .vfloatPow2 e => pow2String e
  | .vbool b => if b then "true" else "false"
  | .vduration d => "\"" ++ jsonEscape (env.durationString d) ++ "\""
  | .vtime t => "\"" ++ jsonEscape (env.timeString t) ++ "\""
  | .vanyNil => "null"
  | .vanyLevel l => "\"" ++ levelString l ++ "\""
  | .vgroup _ => ""

/-! ## The attribute writers (legacy.go `writeNextAttribute`,
`writeAttribute`; json.go `writeGroup`, `writeByKind`) -/

/-- `writeNextAttribute` (legacy.go), with `writeAttribute` (legacy.go) and
`writeGroup` (json.go) inlined as the two match arms so that the recursion is
structural in the explicit budget `fuel`:

* the attribute is first passed through the replacement chain with the
  accumulated group path; a result equal to the zero attribute is omitted;
* a group-kinded result with a non-empty key opens an object under its key and
  renders its members through this same function with the path extended by the
  key; an empty-keyed group inlines its members at the current path;
* any other kind writes its field name and its JSON form per `writeByKind`. -/
def writeNextAttribute : Nat → Env → Handler → List String → Attr → JsonStream → JsonStream
  | 0, _, _, _, _, st => st
  | fuel + 1, env, h, groups, a, st =>
    let b := getReplaceAttr h groups a
    if isZeroAttr b then st
    else
      match b.value with
      | .vgroup ms =>
        if b.key = "" then
          ms.foldl (fun s m => writeNextAttribute fuel env h groups m s) st
        else
          let groups2 := groups ++ [b.key]
          let s1 := (st.writeObjectField b.key).writeObjectStart
          (ms.foldl (fun s m => writeNextAttribute fuel env h groups2 m s) s1).writeObjectEnd
      | v => (st.writeObjectField b.key).writeRaw (jsonValueString env v)

/-- `Handler.writeParentGroupsAndAttributes` (legacy.go): writes the groups and
attributes stored in the handler chain, oldest first, and returns the number of
currently open groups. -/
def writeParentGroupsAndAttributes
    (fuel : Nat) (env : Env) :
    Handler → Bool → JsonStream → JsonStream × Nat
  | .base _, hasChildren, st =>
    if hasChildren then ((st.writeRaw " ").writeObjectStart, 1) else (st, 0)
  | .frame prev g as, hasChildren, st =>
    let r := writeParentGroupsAndAttributes fuel env prev (hasChildren || !as.isEmpty) st
    if g ≠ "" then
      ((r.1.writeObjectField g).writeObjectStart, r.2 + 1)
    else
      (as.foldl
        (fun s attr =>
          writeNextAttribute fuel env (.frame prev g as) (Handler.groups (.frame prev g as)) attr s)
        r.1, r.2)

/-- The stripping loop at the head of `writeAttributes`: while the handler is a
group frame, move to its parent. -/
def stripTrailingGroups : Handler → Handler
  | .base cfg => .base cfg
  | .frame prev g as => if g ≠ "" then stripTrailingGroups prev else .frame prev g as

/-- Writes `n` closing braces. -/
def closeBraces : Nat → JsonStream → JsonStream
  | 0, st => st
  | n + 1, st => closeBraces n st.writeObjectEnd

/-- `writeAttributes` (legacy.go): when the record carries no attributes,
trailing group frames are dropped; then the chain's groups and bound
attributes are written, then the record's own attributes, then the open
braces are closed. -/
def writeAttributes (fuel : Nat) (env : Env) (h : Handler) (rec : Record)
    (st : JsonStream) : JsonStream :=
  let h1 := if rec.attrs.isEmpty then stripTrailingGroups h else h
  let r := writeParentGroupsAndAttributes fuel env h1 (!rec.attrs.isEmpty) st
  let st2 := rec.attrs.foldl (fun s a => writeNextAttribute fuel env h1 h1.groups a s) r.1
  closeBraces r.2 st2

/-! ## The six writing stages and `Handle` (legacy.go) -/

/-- `writeTimestamp`. -/
def writeTimestamp (fuel : Nat) (env : Env) (h : Handler) (rec : Record)
    (st : JsonStream) : JsonStream :=
  if rec.time = 0 then st
  else
    let timeAttr := getReplaceAttr h [] ⟨slogTimeKey, .vtime rec.time⟩
    if isZeroAttr timeAttr then st
    else
      let timestamp :=
        match timeAttr.value with
        | .vtime t => env.formatTime (getTimestampFormat h) t
        | v => valueString env fuel v
      st.writeRaw (timestamp ++ " ")

/-- `writePid`. -/
def writePid (fuel : Nat) (env : Env) (h : Handler) (_rec : Record)
    (st : JsonStream) : JsonStream :=
  let pidAttr := getReplaceAttr h [] ⟨PidKey, .vint env.pid⟩
  if isZeroAttr pidAttr then st
  else st.writeRaw ("[" ++ valueString env fuel pidAttr.value ++ "] ")

/-- The exponent `level/diff + offset` computed by `scaleLevel`, exact in ℚ
(all the float64 operations involved are exact for machine levels). -/
def scaleLevelExp (l : Int) : ℚ :=
  let diff : ℚ := ((levelError - levelWarn : Int) : ℚ)
  let offset : ℚ := 1 - ((levelDebug : Int) : ℚ) / diff
  (l : ℚ) / diff + offset

/-- `writeLevel`: the synthetic level attribute is a `KindAny` value holding
the record's `slog.Level`; in numeric-severity mode a level surviving the
chain (the type assertion to `slog.Leveler` succeeds only on that kind) is
replaced by the float `math.Pow(2, scaleLevelExp l)`. -/
def writeLevel (fuel : Nat) (env : Env) (h : Handler) (rec : Record)
    (st : JsonStream) : JsonStream :=
  let levelAttr := getReplaceAttr h [] ⟨slogLevelKey, .vanyLevel rec.level⟩
  if isZeroAttr levelAttr then st
  else
    let v :=
      if getNumericSeverity h then
        match levelAttr.value with
        | .vanyLevel l => .vfloatPow2 (scaleLevelExp l)
        | w => w
      else levelAttr.value
    st.writeRaw ("<" ++ valueString env fuel v ++ "> ")

/-- The characters after the last dot, or `none` when there is no dot. -/
def suffixAfterDot : List Char → Option (List Char)
  | [] => none
  | c :: cs =>
    match suffixAfterDot cs with
    | some r => some r
    | none => if c = '.' then some cs else none

/-- The suffix of `s` after the final dot (`strings.LastIndex` + slice);
`s` itself when it has no dot. -/
def afterLastDot (s : String) : String :=
  match suffixAfterDot s.data with
  | some r => ⟨r⟩
  | none => s

/-- `writeCaller`: skipped without a program counter; otherwise the resolved
function name, truncated after the final dot unless full names are
configured. -/
def writeCaller (_fuel : Nat) (env : Env) (h : Handler) (rec : Record)
    (st : JsonStream) : JsonStream :=
  if rec.pc = 0 then st
  else
    let who := env.resolve rec.pc
    let who2 := if getUseFullCallerName h then who else afterLastDot who
    st.writeRaw (who2 ++ ": ")

/-- `writeMessage`. -/
def writeMessage (fuel : Nat) (env : Env) (h : Handler) (rec : Record)
    (st : JsonStream) : JsonStream :=
  let msgAttr := getReplaceAttr h [] ⟨slogMessageKey, .vstr rec.message⟩
  if isZeroAttr msgAttr then st
  else st.writeRaw (valueString env fuel msgAttr.value)

/-- `Handler.Handle`: the six writers run in order over one fresh stream
(the loop over the writer list is unrolled), the newline is appended, and the
buffer is written to the destination in a single `Write` call. -/
def handleStream (fuel : Nat) (env : Env) (h : Handler) (rec : Record) : JsonStream :=
  (writeAttributes fuel env h rec
    (writeMessage fuel env h rec
      (writeCaller fuel env h rec
        (writeLevel fuel env h rec
          (writePid fuel env h rec
            (writeTimestamp fuel env h rec ⟨"", false⟩)))))).writeRaw "\n"

/-- The list of `Write` calls `Handle` makes on the destination. -/
def handleWrites (fuel : Nat) (env : Env) (h : Handler) (rec : Record) : List String :=
  [(handleStream fuel env h rec).buf]

/-- The bytes a stage contributes, i.e. what it writes on an empty stream. -/
def timestampSegment (fuel : Nat) (env : Env) (h : Handler) (rec : Record) : String :=
  (writeTimestamp fuel env h rec ⟨"", false⟩).buf

def pidSegment (fuel : Nat) (env : Env) (h : Handler) (rec : Record) : String :=
  (writePid fuel env h rec ⟨"", false⟩).buf

def levelSegment (fuel : Nat) (env : Env) (h : Handler) (rec : Record) : String :=
  (writeLevel fuel env h rec ⟨"", false⟩).buf

def callerSegment (fuel : Nat) (env : Env) (h : Handler) (rec : Record) : String :=
  (writeCaller fuel env h rec ⟨"", false⟩).buf

def messageSegment (fuel : Nat) (env : Env) (h : Handler) (rec : Record) : String :=
  (writeMessage fuel env h rec ⟨"", false⟩).buf

def attributesSegment (fuel : Nat) (env : Env) (h : Handler) (rec : Record) : String :=
  (writeAttributes fuel env h rec ⟨"", false⟩).buf

/-- The fully assembled line `Handle` writes. -/
def handleLine (fuel : Nat) (env : Env) (h : Handler) (rec : Record) : String :=
  timestampSegment fuel env h rec ++ pidSegment fuel env h rec ++
    levelSegment fuel env h rec ++ callerSegment fuel env h rec ++
    messageSegment fuel env h rec ++ attributesSegment fuel env h rec ++ "\n"

/-- `true` when some group frame in the chain carries the (non-empty) name. -/
def hasGroupFrame : Handler → String → Bool
  | .base _, _ => false
  | .frame prev g _, name => ((g != "") && (g == name)) || hasGroupFrame prev name

/-- The exact real-number semantics of `scaleLevel` (legacy.go): the float64
arithmetic on the way to the exponent is exact (the operands are small
integers and quarters), so the function is `2 ^ (level/diff + offset)` with
`diff = ErrorLevel − WarnLevel` and `offset = 1 − DebugLevel/diff`. -/
noncomputable def scaleLevel (l : Int) : ℝ :=
  (2 : ℝ) ^ ((l : ℝ) / ((levelError : ℝ) - (levelWarn : ℝ)) +
    (1 - (levelDebug : ℝ) / ((levelError : ℝ) - (levelWarn : ℝ))))

/-- The severity formula exactly as the specification words it:
`2^((level − WarnLevel)/(ErrorLevel − WarnLevel) + 1 − DebugLevel/(ErrorLevel − WarnLevel))`. -/
noncomputable def specScaleLevelFormula (l : Int) : ℝ :=
  (2 : ℝ) ^ (((l : ℝ) - (levelWarn : ℝ)) / ((levelError : ℝ) - (levelWarn : ℝ)) +
    1 - (levelDebug : ℝ) / ((levelError : ℝ) - (levelWarn : ℝ)))

/-- The amended severity formula: as the spec's, but with `level` itself (not
`level − WarnLevel`) in the first numerator. -/
noncomputable def specScaleLevelAmended (l : Int) : ℝ :=
  (2 : ℝ) ^ ((l : ℝ) / ((levelError : ℝ) - (levelWarn : ℝ)) +
    1 - (levelDebug : ℝ) / ((levelError : ℝ) - (levelWarn : ℝ)))

/-! ## Concrete instances used by the claim theorems -/

/-- A concrete environment: pid 42, every program counter resolving to a
typical fully qualified Go function name, and fixed library formatting
results. -/
def envW : Env :=
  ⟨42, fun _ => "github.com/rkennedy/nblog_test.TestCaller",
    fun _ _ => "2006-01-02 15:04:05.000", fun _ => "5m0s",
    fun _ => "2010-06-04 10:34:23 +0000 UTC"⟩

/-- A replacement function that always returns the removal sentinel. -/
def alwaysSentinel : ReplaceAttrFunc := fun _ _ => ⟨"", .vanyNil⟩

/-- A replacement function whose output records that it ran. -/
def markerRepl : ReplaceAttrFunc := fun _ _ => ⟨"gmark", .vint 1⟩

/-- A replacement function that rewrites the attribute keyed `"g"` (a group
attribute in the inputs used below) into a scalar. -/
def groupRewriteRepl : ReplaceAttrFunc :=
  fun _ a => if a.key = "g" then ⟨"replaced", .vint 7⟩ else a

/-- A replacement function that acts only on the member `a` seen with the
group path `["g"]` — for observing which path flattened members carry. -/
def pathSensitiveRepl : ReplaceAttrFunc :=
  fun gs a => if gs = ["g"] ∧ a.key = "a" then ⟨"inner", .vint 9⟩ else a

/-- A stream transformer `F` is buffer-invariant when its effect on any stream
is to append what it would produce on an empty buffer with the same
`needComma` flag, and the resulting flag likewise depends only on the incoming
flag. -/
def BufInv (F : JsonStream → JsonStream) : Prop :=
  ∀ b c, F ⟨b, c⟩ = ⟨b ++ (F ⟨"", c⟩).buf, (F ⟨"", c⟩).needComma⟩

theorem bufInv_id : BufInv (fun st => st) := by
  intro b c
  simp

theorem bufInv_writeRaw (s : String) : BufInv (fun st => st.writeRaw s) := by
  intro b c
  simp [JsonStream.writeRaw]

theorem bufInv_writeObjectField (k : String) :
    BufInv (fun st => st.writeObjectField k) := by
  intro b c
  simp [JsonStream.writeObjectField, String.append_assoc]

theorem bufInv_writeObjectStart : BufInv (fun st => st.writeObjectStart) := by
  intro b c
  simp [JsonStream.writeObjectStart]

theorem bufInv_writeObjectEnd : BufInv (fun st => st.writeObjectEnd) := by
  intro b c
  simp [JsonStream.writeObjectEnd]

theorem BufInv.comp {F G : JsonStream → JsonStream} (hF : BufInv F)
    (hG : BufInv G) : BufInv (fun st => G (F st)) := by
  intro b c
  rcases hFv : F ⟨"", c⟩ with ⟨fb, fc⟩
  rcases hGv : G ⟨"", fc⟩ with ⟨gb, gc⟩
  have h1 : F ⟨b, c⟩ = ⟨b ++ fb, fc⟩ := by rw [hF b c, hFv]
  have h3 : G ⟨fb, fc⟩ = ⟨fb ++ gb, gc⟩ := by rw [hG fb fc, hGv]
  show G (F ⟨b, c⟩) = ⟨b ++ (G (F ⟨"", c⟩)).buf, (G (F ⟨"", c⟩)).needComma⟩
  rw [h1, hG (b ++ fb) fc, hGv, hFv, h3]
  simp [String.append_assoc]

theorem bufInv_foldl {α : Type} (g : JsonStream → α → JsonStream)
    (hg : ∀ m, BufInv (fun st => g st m)) :
    ∀ ms : List α, BufInv (fun st => ms.foldl g st) := by
  intro ms
  induction ms with
  | nil => simpa using bufInv_id
  | cons m ms ih => simpa [List.foldl_cons] using BufInv.comp (hg m) ih

theorem bufInv_writeNextAttribute :
    ∀ (fuel : Nat) (env : Env) (h : Handler) (gs : List String) (a : Attr),
      BufInv (writeNextAttribute fuel env h gs a) := by
  intro fuel
  induction fuel with
  | zero =>
    intro env h gs a
    simpa [writeNextAttribute] using bufInv_id
  | succ f ih =>
    intro env h gs a
    by_cases hz : isZeroAttr (getReplaceAttr h gs a)
    · simpa [writeNextAttribute, hz] using bufInv_id
    · rcases hv : (getReplaceAttr h gs a).value with s|i|n|q|e|bb|d|t|ms|_|l
      pick_goal 9
      · by_cases hk : (getReplaceAttr h gs a).key = ""
        · have hfold := bufInv_foldl _ (fun m => ih env h gs m) ms
          intro b c
          simpa [writeNextAttribute, hz, hv, hk] using hfold b c
        · have hfold := bufInv_foldl _
            (fun m => ih env h (gs ++ [(getReplaceAttr h gs a).key]) m) ms
          have hcomp :=
            BufInv.comp (BufInv.comp (BufInv.comp
              (bufInv_writeObjectField (getReplaceAttr h gs a).key)
              bufInv_writeObjectStart) hfold) bufInv_writeObjectEnd
          intro b c
          simpa [writeNextAttribute, hz, hv, hk] using hcomp b c
      all_goals
        have hcomp :=
          BufInv.comp (bufInv_writeObjectField (getReplaceAttr h gs a).key)
            (bufInv_writeRaw (jsonValueString env (getReplaceAttr h gs a).value))
      all_goals intro b c
      all_goals simpa [writeNextAttribute, hz, hv] using hcomp b c

theorem wpga_split (fuel : Nat) (env : Env) :
    ∀ (h : Handler) (hc : Bool) (b : String) (c : Bool),
      writeParentGroupsAndAttributes fuel env h hc ⟨b, c⟩ =
        (⟨b ++ (writeParentGroupsAndAttributes fuel env h hc ⟨"", c⟩).1.buf,
          (writeParentGroupsAndAttributes fuel env h hc ⟨"", c⟩).1.needComma⟩,
         (writeParentGroupsAndAttributes fuel env h hc ⟨"", c⟩).2) := by
  intro h
  induction h with
  | base cfg =>
    intro hc b c
    cases hc <;>
      simp [writeParentGroupsAndAttributes, JsonStream.writeRaw,
        JsonStream.writeObjectStart, String.append_assoc]
  | frame prev g as ih =>
    intro hc b c
    rcases hPrev : writeParentGroupsAndAttributes fuel env prev (hc || !as.isEmpty) ⟨"", c⟩
      with ⟨⟨pb, pc'⟩, pn⟩
    have h1 : writeParentGroupsAndAttributes fuel env prev (hc || !as.isEmpty) ⟨b, c⟩ =
        (⟨b ++ pb, pc'⟩, pn) := by rw [ih, hPrev]
    by_cases hg : g = ""
    · subst hg
      have hfold := bufInv_foldl
        (fun s attr =>
          writeNextAttribute fuel env (.frame prev "" as) (Handler.groups (.frame prev "" as)) attr s)
        (fun m => bufInv_writeNextAttribute fuel env _ _ m) as
      rcases hFv : as.foldl
          (fun s attr =>
            writeNextAttribute fuel env (.frame prev "" as) (Handler.groups (.frame prev "" as)) attr s)
          ⟨"", pc'⟩ with ⟨fb, fc⟩
      have h2 : as.foldl
          (fun s attr =>
            writeNextAttribute fuel env (.frame prev "" as) (Handler.groups (.frame prev "" as)) attr s)
          ⟨pb, pc'⟩ = ⟨pb ++ fb, fc⟩ := by simpa [hFv] using hfold pb pc'
      have h3 : as.foldl
          (fun s attr =>
            writeNextAttribute fuel env (.frame prev "" as) (Handler.groups (.frame prev "" as)) attr s)
          ⟨b ++ pb, pc'⟩ = ⟨b ++ (pb ++ fb), fc⟩ := by
        simpa [hFv, String.append_assoc] using hfold (b ++ pb) pc'
      simp only [writeParentGroupsAndAttributes, h1, hPrev]
      simp [h2, h3, String.append_assoc]
    · simp only [writeParentGroupsAndAttributes, hg, h1, hPrev]
      simp [hg, JsonStream.writeObjectField, JsonStream.writeObjectStart,
        String.append_assoc]

theorem bufInv_closeBraces : ∀ n : Nat, BufInv (closeBraces n) := by
  intro n
  induction n with
  | zero => simpa [closeBraces] using bufInv_id
  | succ k ih =>
    have := BufInv.comp bufInv_writeObjectEnd ih
    intro b c
    simpa [closeBraces] using this b c

theorem bufInv_writeAttributes (fuel : Nat) (env : Env) (h : Handler)
    (rec : Record) : BufInv (writeAttributes fuel env h rec) := by
  intro b c
  rcases hW : writeParentGroupsAndAttributes fuel env
      (if rec.attrs.isEmpty then stripTrailingGroups h else h) (!rec.attrs.isEmpty) ⟨"", c⟩
    with ⟨⟨pb, pc'⟩, pn⟩
  have h1 : writeParentGroupsAndAttributes fuel env
      (if rec.attrs.isEmpty then stripTrailingGroups h else h) (!rec.attrs.isEmpty) ⟨b, c⟩ =
      (⟨b ++ pb, pc'⟩, pn) := by
    rw [wpga_split fuel env _ _ b c, hW]
  have hfold := bufInv_foldl
    (fun s a => writeNextAttribute fuel env
      (if rec.attrs.isEmpty then stripTrailingGroups h else h)
      (if rec.attrs.isEmpty then stripTrailingGroups h else h).groups a s)
    (fun m => bufInv_writeNextAttribute fuel env _ _ m) rec.attrs
  rcases hFv : rec.attrs.foldl
      (fun s a => writeNextAttribute fuel env
        (if rec.attrs.isEmpty then stripTrailingGroups h else h)
        (if rec.attrs.isEmpty then stripTrailingGroups h else h).groups a s)
      ⟨"", pc'⟩ with ⟨fb, fc⟩
  have h2 : rec.attrs.foldl
      (fun s a => writeNextAttribute fuel env
        (if rec.attrs.isEmpty then stripTrailingGroups h else h)
        (if rec.attrs.isEmpty then stripTrailingGroups h else h).groups a s)
      ⟨pb, pc'⟩ = ⟨pb ++ fb, fc⟩ := by simpa [hFv] using hfold pb pc'
  have h3 : rec.attrs.foldl
      (fun s a => writeNextAttribute fuel env
        (if rec.attrs.isEmpty then stripTrailingGroups h else h)
        (if rec.attrs.isEmpty then stripTrailingGroups h else h).groups a s)
      ⟨b ++ pb, pc'⟩ = ⟨b ++ (pb ++ fb), fc⟩ := by
    simpa [hFv, String.append_assoc] using hfold (b ++ pb) pc'
  rcases hCv : closeBraces pn ⟨"", fc⟩ with ⟨cb, cc⟩
  have h5 : closeBraces pn ⟨pb ++ fb, fc⟩ = ⟨(pb ++ fb) ++ cb, cc⟩ := by
    simpa [hCv] using bufInv_closeBraces pn (pb ++ fb) fc
  have h6 : closeBraces pn ⟨b ++ (pb ++ fb), fc⟩ = ⟨(b ++ (pb ++ fb)) ++ cb, cc⟩ := by
    simpa [hCv] using bufInv_closeBraces pn (b ++ (pb ++ fb)) fc
  simp only [writeAttributes]
  rw [h1, hW]
  simp [h2, h3, h5, h6, String.append_assoc]

/-! ## The decomposition of `Handle` into per-stage segments -/

/-- The first five stages only use `WriteRaw`: each acts on any stream by
appending its segment, leaving `needComma` untouched. -/
theorem writeTimestamp_raw (fuel : Nat) (env : Env) (h : Handler) (rec : Record)
    (st : JsonStream) :
    writeTimestamp fuel env h rec st = st.writeRaw (timestampSegment fuel env h rec) := by
  cases st with
  | mk b c =>
    by_cases h0 : rec.time = 0
    · simp [writeTimestamp, timestampSegment, h0, JsonStream.writeRaw]
    · by_cases hz : isZeroAttr (getReplaceAttr h [] ⟨slogTimeKey, .vtime rec.time⟩)
      · simp [writeTimestamp, timestampSegment, h0, hz, JsonStream.writeRaw]
      · simp [writeTimestamp, timestampSegment, h0, hz, JsonStream.writeRaw]

theorem writePid_raw (fuel : Nat) (env : Env) (h : Handler) (rec : Record)
    (st : JsonStream) :
    writePid fuel env h rec st = st.writeRaw (pidSegment fuel env h rec) := by
  cases st with
  | mk b c =>
    by_cases hz : isZeroAttr (getReplaceAttr h [] ⟨PidKey, .vint env.pid⟩)
    · simp [writePid, pidSegment, hz, JsonStream.writeRaw]
    · simp [writePid, pidSegment, hz, JsonStream.writeRaw]

theorem writeLevel_raw (fuel : Nat) (env : Env) (h : Handler) (rec : Record)
    (st : JsonStream) :
    writeLevel fuel env h rec st = st.writeRaw (levelSegment fuel env h rec) := by
  cases st with
  | mk b c =>
    by_cases hz : isZeroAttr (getReplaceAttr h [] ⟨slogLevelKey, .vanyLevel rec.level⟩)
    · simp [writeLevel, levelSegment, hz, JsonStream.writeRaw]
    · simp [writeLevel, levelSegment, hz, JsonStream.writeRaw]

theorem writeCaller_raw (fuel : Nat) (env : Env) (h : Handler) (rec : Record)
    (st : JsonStream) :
    writeCaller fuel env h rec st = st.writeRaw (callerSegment fuel env h rec) := by
  cases st with
  | mk b c =>
    by_cases h0 : rec.pc = 0
    · simp [writeCaller, callerSegment, h0, JsonStream.writeRaw]
    · simp [writeCaller, callerSegment, h0, JsonStream.writeRaw]

theorem writeMessage_raw (fuel : Nat) (env : Env) (h : Handler) (rec : Record)
    (st : JsonStream) :
    writeMessage fuel env h rec st = st.writeRaw (messageSegment fuel env h rec) := by
  cases st with
  | mk b c =>
    by_cases hz : isZeroAttr (getReplaceAttr h [] ⟨slogMessageKey, .vstr rec.message⟩)
    · simp [writeMessage, messageSegment, hz, JsonStream.writeRaw]
    · simp [writeMessage, messageSegment, hz, JsonStream.writeRaw]

/-- `Handle` writes exactly the concatenation of its six segments plus the
final newline, in one `Write` call. -/
theorem handleWrites_eq (fuel : Nat) (env : Env) (h : Handler) (rec : Record) :
    handleWrites fuel env h rec = [handleLine fuel env h rec] := by
  have hattr : writeAttributes fuel env h rec
      ⟨timestampSegment fuel env h rec ++ pidSegment fuel env h rec ++
        levelSegment fuel env h rec ++ callerSegment fuel env h rec ++
        messageSegment fuel env h rec, false⟩ =
      ⟨timestampSegment fuel env h rec ++ pidSegment fuel env h rec ++
        levelSegment fuel env h rec ++ callerSegment fuel env h rec ++
        messageSegment fuel env h rec ++ attributesSegment fuel env h rec,
       (writeAttributes fuel env h rec ⟨"", false⟩).needComma⟩ := by
    have := bufInv_writeAttributes fuel env h rec
      (timestampSegment fuel env h rec ++ pidSegment fuel env h rec ++
        levelSegment fuel env h rec ++ callerSegment fuel env h rec ++
        messageSegment fuel env h rec) false
    simpa [attributesSegment, String.append_assoc] using this
  simp only [handleWrites, handleStream, writeTimestamp_raw, writePid_raw,
    writeLevel_raw, writeCaller_raw, writeMessage_raw, JsonStream.writeRaw,
    String.empty_append]
  rw [hattr]
  simp [handleLine, JsonStream.writeRaw, String.append_assoc]

/-- With `hasChildren = true` (as happens whenever the record carries at least
one attribute), the chain writer opens an object under the name of every group
frame: the pattern `"name": \x7b` occurs in the produced buffer. -/
theorem wpga_contains (fuel : Nat) (env : Env) :
    ∀ (h : Handler) (name : String) (st : JsonStream),
      hasGroupFrame h name = true →
      ∃ A B, (writeParentGroupsAndAttributes fuel env h true st).1.buf =
        A ++ (fieldStr name ++ "\x7b") ++ B := by
  intro h
  induction h with
  | base cfg =>
    intro name st hname
    simp [hasGroupFrame] at hname
  | frame prev g as ih =>
    intro name st hname
    rcases hr : writeParentGroupsAndAttributes fuel env prev (true || !as.isEmpty) st
      with ⟨⟨rb, rc⟩, rn⟩
    have hr1 : writeParentGroupsAndAttributes fuel env prev true st = (⟨rb, rc⟩, rn) := by
      simpa using hr
    simp only [hasGroupFrame, Bool.or_eq_true, Bool.and_eq_true, bne_iff_ne,
      beq_iff_eq, ne_eq] at hname
    rcases hname with ⟨hgne, hgname⟩ | hprev
    · subst hgname
      refine ⟨rb ++ (if rc then ", " else ""), "", ?_⟩
      simp [writeParentGroupsAndAttributes, hr, hr1, hgne, JsonStream.writeObjectField,
        JsonStream.writeObjectStart, String.append_assoc]
    · obtain ⟨A, B, hAB⟩ := ih name st hprev
      rw [hr1] at hAB
      simp only at hAB
      by_cases hg : g = ""
      · subst hg
        have hfold := bufInv_foldl
          (fun s attr =>
            writeNextAttribute fuel env (.frame prev "" as) (Handler.groups (.frame prev "" as)) attr s)
          (fun m => bufInv_writeNextAttribute fuel env _ _ m) as
        have h2 : as.foldl
            (fun s attr =>
              writeNextAttribute fuel env (.frame prev "" as) (Handler.groups (.frame prev "" as)) attr s)
            ⟨rb, rc⟩ =
            ⟨rb ++ (as.foldl
              (fun s attr =>
                writeNextAttribute fuel env (.frame prev "" as) (Handler.groups (.frame prev "" as)) attr s)
              ⟨"", rc⟩).buf, (as.foldl
              (fun s attr =>
                writeNextAttribute fuel env (.frame prev "" as) (Handler.groups (.frame prev "" as)) attr s)
              ⟨"", rc⟩).needComma⟩ := by
          simpa using hfold rb rc
        refine ⟨A, B ++ (as.foldl
          (fun s attr =>
            writeNextAttribute fuel env (.frame prev "" as) (Handler.groups (.frame prev "" as)) attr s)
          ⟨"", rc⟩).buf, ?_⟩
        simp only [writeParentGroupsAndAttributes, hr]
        simp only [h2]
        rw [hAB]
        simp [String.append_assoc]
      · refine ⟨A, B ++ ((if rc then ", " else "") ++ fieldStr g ++ "\x7b"), ?_⟩
        simp [writeParentGroupsAndAttributes, hr, hr1, hg, JsonStream.writeObjectField,
          JsonStream.writeObjectStart, hAB, String.append_assoc]

/-! ## Model validation against the repository's own test expectations -/

/-- The nesting scenario of the repository's `TestWithGroup`: bind `c = 3`,
open group `g`, bind `a = 1` inside it, open group `h` inside that, then log
with call-site attribute `b = 1`.  The model reproduces the expected
attribute block `{"c": 3, "g": {"a": 1, "h": {"b": 1}}}` and the short caller
name. -/
theorem nested_groups_scenario :
    handleWrites 10 envW
        (((((Handler.base defaultConfig).withAttrs [⟨"c", .vint 3⟩]).withGroup "g").withAttrs
          [⟨"a", .vint 1⟩]).withGroup "h")
        ⟨0, 0, "message", 1, [⟨"b", .vint 1⟩]⟩ =
      ["[42] <INFO> TestCaller: message \x7b\"c\": 3, \"g\": \x7b\"a\": 1, \"h\": \x7b\"b\": 1\x7d\x7d\x7d\n"] :=
  rfl

/-! ## C1 -/

/-- C1, counterexample: `ChainReplace` does not short-circuit on the removal
sentinel.  With `F` returning the sentinel (empty key) on every input and `G`
a marker function, the composed chain returns `G`'s output — so `G` was
invoked on the sentinel — where the claim requires the chain to return the
sentinel with `G` never invoked. -/
theorem chainReplace_invokes_second_on_sentinel :
    (alwaysSentinel [] ⟨"a", .vint 3⟩).key = "" ∧
    ChainReplace (some alwaysSentinel) (some markerRepl) [] ⟨"a", .vint 3⟩ =
      ⟨"gmark", .vint 1⟩ ∧
    ChainReplace (some alwaysSentinel) (some markerRepl) [] ⟨"a", .vint 3⟩ ≠
      alwaysSentinel [] ⟨"a", .vint 3⟩ := by
  refine ⟨rfl, rfl, ?_⟩
  intro hcontr
  have h2 : Attr.mk "gmark" (.vint 1) = Attr.mk "" .vanyNil := hcontr
  injection h2 with hk hv
  exact absurd hk (by decide)

/-- C1 (amended): the chain built by `ChainReplace(F, G)` computes
`G(F(attribute))` for every group path and attribute, with no short-circuit:
when `F` returns the removal sentinel, `G` is still invoked and receives the
sentinel.  A nil `F` or `G` is skipped, and two nils yield the identity. -/
theorem chainReplace_is_plain_composition :
    ∀ (f g : ReplaceAttrFunc) (gs : List String) (a : Attr),
      ChainReplace (some f) (some g) gs a = g gs (f gs a) ∧
      ChainReplace (some f) none gs a = f gs a ∧
      ChainReplace none (some g) gs a = g gs a ∧
      ChainReplace none none gs a = a := by
  intro f g gs a
  exact ⟨rfl, rfl, rfl, rfl⟩

/-! ## C2 -/

/-- C2, failing input: the current `writeCaller` gives the `"who"` attribute
no special role.  A record carrying the call-site attribute `who = "override"`
renders the caller resolved from the program counter, and `"who"` appears in
the attribute block — where the claim (and the repository's own
`TestOverrideCallerNameImmediate`) require `override` as the caller and no
`"who"` member. -/
theorem who_attribute_has_no_special_handling :
    handleWrites 10 envW (.base ⟨levelInfo, none, FullDateFormat, true, false⟩)
        ⟨0, 0, "message", 1, [⟨"who", .vstr "override"⟩]⟩ =
      ["[42] <INFO> github.com/rkennedy/nblog_test.TestCaller: message \x7b\"who\": \"override\"\x7d\n"] ∧
    handleWrites 10 envW (.base ⟨levelInfo, none, FullDateFormat, true, false⟩)
        ⟨0, 0, "message", 1, [⟨"who", .vstr "override"⟩]⟩ ≠
      ["[42] <INFO> override: message\n"] ∧
    (∀ (fuel : Nat) (env : Env) (h : Handler) (rec rec' : Record)
        (st : JsonStream), rec.pc = rec'.pc →
      writeCaller fuel env h rec st = writeCaller fuel env h rec' st) := by
  refine ⟨rfl, by decide, ?_⟩
  intro fuel env h rec rec' st hpc
  simp [writeCaller, hpc]

/-- C2 witness for the universal clause: two records sharing a program counter
but differing in message and attributes (one carries `who`) produce the same
caller segment. -/
theorem who_attribute_has_no_special_handling_witness :
    writeCaller 1 envW (.base defaultConfig)
        ⟨0, 0, "a", 5, [⟨"who", .vstr "x"⟩]⟩ ⟨"", false⟩ =
      writeCaller 1 envW (.base defaultConfig) ⟨0, 0, "b", 5, []⟩ ⟨"", false⟩ :=
  who_attribute_has_no_special_handling.2.2 1 envW (.base defaultConfig)
    ⟨0, 0, "a", 5, [⟨"who", .vstr "x"⟩]⟩ ⟨0, 0, "b", 5, []⟩ ⟨"", false⟩ rfl

/-! ## C3 -/

/-- C3, counterexample: a group frame bound by the open-group derivation is
*not* always opened.  With chain `base → attrs[a=1] → group "u"` and a record
with no call-site attributes, the block renders `{"a": 1}`; the claimed
`"u": \x7b\x7d` member is absent. -/
theorem bound_group_omitted_without_record_attrs :
    handleWrites 10 envW
        (((Handler.base defaultConfig).withAttrs [⟨"a", .vint 1⟩]).withGroup "u")
        ⟨0, 0, "message", 0, []⟩ =
      ["[42] <INFO> message \x7b\"a\": 1\x7d\n"] ∧
    handleWrites 10 envW
        (((Handler.base defaultConfig).withAttrs [⟨"a", .vint 1⟩]).withGroup "u")
        ⟨0, 0, "message", 0, []⟩ ≠
      ["[42] <INFO> message \x7b\"a\": 1, \"u\": \x7b\x7d\x7d\n"] := by
  exact ⟨rfl, by decide⟩

/-- C3 (amended): whenever the record carries at least one call-site
attribute, every bound group frame opens a nested object under its name (even
one that ends up with zero members); only when the record carries none are the
trailing group frames at the leaf end of the chain omitted. -/
theorem bound_group_opens_object_with_record_attrs
    (fuel : Nat) (env : Env) (h : Handler) (rec : Record) (st : JsonStream)
    (name : String) (hattrs : rec.attrs ≠ []) (hgf : hasGroupFrame h name = true) :
    ∃ A B, (writeAttributes fuel env h rec st).buf =
      A ++ (fieldStr name ++ "\x7b") ++ B := by
  have hne : rec.attrs.isEmpty = false := by
    cases hrec : rec.attrs with
    | nil => exact absurd hrec hattrs
    | cons a as => simp
  rcases hW : writeParentGroupsAndAttributes fuel env h true st with ⟨⟨pb, pc'⟩, pn⟩
  obtain ⟨A, B, hAB⟩ := wpga_contains fuel env h name st hgf
  rw [hW] at hAB
  simp only at hAB
  have hfold := bufInv_foldl
    (fun s a => writeNextAttribute fuel env h h.groups a s)
    (fun m => bufInv_writeNextAttribute fuel env _ _ m) rec.attrs
  have h2 : rec.attrs.foldl (fun s a => writeNextAttribute fuel env h h.groups a s)
      ⟨pb, pc'⟩ =
      ⟨pb ++ (rec.attrs.foldl (fun s a => writeNextAttribute fuel env h h.groups a s)
        ⟨"", pc'⟩).buf,
       (rec.attrs.foldl (fun s a => writeNextAttribute fuel env h h.groups a s)
        ⟨"", pc'⟩).needComma⟩ := by
    simpa using hfold pb pc'
  rcases hFv : rec.attrs.foldl (fun s a => writeNextAttribute fuel env h h.groups a s)
      ⟨"", pc'⟩ with ⟨fb, fc⟩
  rw [hFv] at h2
  rcases hCv : closeBraces pn ⟨"", fc⟩ with ⟨cb, cc⟩
  have h5 : closeBraces pn ⟨pb ++ fb, fc⟩ = ⟨(pb ++ fb) ++ cb, cc⟩ := by
    simpa [hCv] using bufInv_closeBraces pn (pb ++ fb) fc
  refine ⟨A, (B ++ fb) ++ cb, ?_⟩
  simp only [writeAttributes, hne, Bool.not_false, if_neg (by simp : ¬(false = true))]
  rw [hW]
  simp only []
  rw [h2, h5, hAB]
  simp [String.append_assoc]

/-- C3 witness: the amended theorem applied to the chain
`base → group "u" → attrs[a=1]` — wait, to `base → attrs[a=1] → group "u"` —
with a record carrying one attribute. -/
theorem bound_group_opens_object_with_record_attrs_witness :
    ((⟨0, 0, "m", 0, [⟨"b", .vint 2⟩]⟩ : Record).attrs ≠ []) ∧
    hasGroupFrame (((Handler.base defaultConfig).withAttrs [⟨"a", .vint 1⟩]).withGroup "u") "u" = true ∧
    ∃ A B, (writeAttributes 10 envW
        (((Handler.base defaultConfig).withAttrs [⟨"a", .vint 1⟩]).withGroup "u")
        ⟨0, 0, "m", 0, [⟨"b", .vint 2⟩]⟩ ⟨"", false⟩).buf =
      A ++ (fieldStr "u" ++ "\x7b") ++ B :=
  ⟨by simp, by decide,
    bound_group_opens_object_with_record_attrs 10 envW
      (((Handler.base defaultConfig).withAttrs [⟨"a", .vint 1⟩]).withGroup "u")
      ⟨0, 0, "m", 0, [⟨"b", .vint 2⟩]⟩ ⟨"", false⟩ "u" (by simp) (by decide)⟩

/-! ## C4 -/

/-- C4, failing input: an explicit group-typed attribute value with zero
members is still emitted with its key and braces.  Binding
`[a = 1, r = group()]` and logging a record with no call-site attributes
yields `{"a": 1, "r": \x7b\x7d}` — the claim (and the repository's own
`TestEmptyGroup`) require `{"a": 1}`. -/
theorem empty_explicit_group_rendered :
    handleWrites 10 envW
        ((Handler.base defaultConfig).withAttrs [⟨"a", .vint 1⟩, ⟨"r", .vgroup []⟩])
        ⟨0, 0, "message", 0, []⟩ =
      ["[42] <INFO> message \x7b\"a\": 1, \"r\": \x7b\x7d\x7d\n"] ∧
    handleWrites 10 envW
        ((Handler.base defaultConfig).withAttrs [⟨"a", .vint 1⟩, ⟨"r", .vgroup []⟩])
        ⟨0, 0, "message", 0, []⟩ ≠
      ["[42] <INFO> message \x7b\"a\": 1\x7d\n"] := by
  exact ⟨rfl, by decide⟩

/-! ## C9 -/

/-- C9, failing input: the replacement chain *is* invoked on a group-typed
attribute itself.  With a chain that rewrites the attribute keyed `"g"`, a
record attribute `g = group(a = 1)` renders as `{"replaced": 7}` — the chain
received the whole group — while with no chain the same record renders
`{"g": {"a": 1}}`.  Under the claim the chain would only ever see the leaf
`a`, and `g` would flatten unchanged in both runs.  (The member-flattening
half of the claim does hold: a chain firing only on the member `a` at group
path `["g"]` sees it there, as the third run shows.) -/
theorem chain_applied_to_group_attribute :
    handleWrites 10 envW (.base ⟨levelInfo, some groupRewriteRepl, FullDateFormat, false, false⟩)
        ⟨0, 0, "m", 0, [⟨"g", .vgroup [⟨"a", .vint 1⟩]⟩]⟩ =
      ["[42] <INFO> m \x7b\"replaced\": 7\x7d\n"] ∧
    handleWrites 10 envW (.base defaultConfig)
        ⟨0, 0, "m", 0, [⟨"g", .vgroup [⟨"a", .vint 1⟩]⟩]⟩ =
      ["[42] <INFO> m \x7b\"g\": \x7b\"a\": 1\x7d\x7d\n"] ∧
    handleWrites 10 envW (.base ⟨levelInfo, some pathSensitiveRepl, FullDateFormat, false, false⟩)
        ⟨0, 0, "m", 0, [⟨"g", .vgroup [⟨"a", .vint 1⟩]⟩]⟩ =
      ["[42] <INFO> m \x7b\"g\": \x7b\"inner\": 9\x7d\x7d\n"] :=
  ⟨rfl, rfl, rfl⟩

/-! ## C10 -/

/-- C7: for every record (with the attribute recursion given any budget),
`Handle` performs exactly one `Write` call on the destination, whose payload
is the six assembled segments in order terminated by one newline — whatever
the number of attributes. -/
theorem handle_writes_single_line (fuel : Nat) (env : Env) (h : Handler)
    (rec : Record) :
    handleWrites fuel env h rec = [handleLine fuel env h rec] ∧
    (handleWrites fuel env h rec).length = 1 := by
  exact ⟨handleWrites_eq fuel env h rec, by simp [handleWrites]⟩

/-! ## C8 -/

/-- C8: a record with zero-valued timestamp contributes nothing from the
timestamp stage — neither the field nor its trailing separator — and the
written line is exactly the remaining segments, unaffected. -/
theorem zero_time_omits_timestamp (fuel : Nat) (env : Env) (h : Handler)
    (rec : Record) (st : JsonStream) (h0 : rec.time = 0) :
    writeTimestamp fuel env h rec st = st ∧
    handleWrites fuel env h rec =
      [pidSegment fuel env h rec ++ levelSegment fuel env h rec ++
        callerSegment fuel env h rec ++ messageSegment fuel env h rec ++
        attributesSegment fuel env h rec ++ "\n"] := by
  constructor
  · simp [writeTimestamp, h0]
  · have hts : timestampSegment fuel env h rec = "" := by
      simp [timestampSegment, writeTimestamp, h0]
    simpa [handleLine, hts, String.empty_append] using handleWrites_eq fuel env h rec

/-- C8 witness: a concrete record with zero time. -/
theorem zero_time_omits_timestamp_witness :
    writeTimestamp 1 envW (.base defaultConfig) ⟨0, 0, "m", 0, []⟩ ⟨"", false⟩ =
      ⟨"", false⟩ ∧
    handleWrites 1 envW (.base defaultConfig) ⟨0, 0, "m", 0, []⟩ =
      [pidSegment 1 envW (.base defaultConfig) ⟨0, 0, "m", 0, []⟩ ++
        levelSegment 1 envW (.base defaultConfig) ⟨0, 0, "m", 0, []⟩ ++
        callerSegment 1 envW (.base defaultConfig) ⟨0, 0, "m", 0, []⟩ ++
        messageSegment 1 envW (.base defaultConfig) ⟨0, 0, "m", 0, []⟩ ++
        attributesSegment 1 envW (.base defaultConfig) ⟨0, 0, "m", 0, []⟩ ++ "\n"] :=
  zero_time_omits_timestamp 1 envW (.base defaultConfig) ⟨0, 0, "m", 0, []⟩
    ⟨"", false⟩ rfl

/-! ## C5 and C6: the numeric-severity mapping -/

/-- C5, counterexample: the specification's formula does not match the code.
At `LevelInfo` the code's `scaleLevel` yields 4, while the formula
`2^((level − WarnLevel)/(ErrorLevel − WarnLevel) + 1 − DebugLevel/(ErrorLevel − WarnLevel))`
yields 2. -/
theorem spec_severity_formula_mismatch :
    scaleLevel levelInfo = 4 ∧ specScaleLevelFormula levelInfo = 2 ∧
    specScaleLevelFormula levelInfo ≠ scaleLevel levelInfo := by
  have h1 : scaleLevel levelInfo = 4 := by
    unfold scaleLevel
    have he : ((levelInfo : Int) : ℝ) / ((levelError : ℝ) - (levelWarn : ℝ)) +
        (1 - (levelDebug : ℝ) / ((levelError : ℝ) - (levelWarn : ℝ))) = ((2 : ℕ) : ℝ) := by
      norm_num [levelDebug, levelInfo, levelWarn, levelError]
    rw [he, Real.rpow_natCast]
    norm_num
  have h2 : specScaleLevelFormula levelInfo = 2 := by
    unfold specScaleLevelFormula
    have he : (((levelInfo : Int) : ℝ) - (levelWarn : ℝ)) / ((levelError : ℝ) - (levelWarn : ℝ)) +
        1 - (levelDebug : ℝ) / ((levelError : ℝ) - (levelWarn : ℝ)) = 1 := by
      norm_num [levelDebug, levelInfo, levelWarn, levelError]
    rw [he, Real.rpow_one]
  refine ⟨h1, h2, ?_⟩
  rw [h1, h2]
  norm_num

/-- C5 (amended): in numeric-severity mode the severity value is the float
`2^(level/(ErrorLevel − WarnLevel) + 1 − DebugLevel/(ErrorLevel − WarnLevel))`
— the spec's formula with `level` itself, not `level − WarnLevel`, in the
first numerator. -/
theorem scaleLevel_eq_amended_formula (l : Int) :
    scaleLevel l = specScaleLevelAmended l := by
  unfold scaleLevel specScaleLevelAmended
  congr 1
  norm_num [levelDebug, levelWarn, levelError]
  ring

/-- C6: the four standard severities map exactly to 2, 4, 8, 16 — both as the
exact value of `scaleLevel` and as the rendered severity segment `<n> ` in
numeric-severity mode with the default (empty) replacement chain. -/
theorem standard_severities_scale_to_powers :
    scaleLevel levelDebug = 2 ∧ scaleLevel levelInfo = 4 ∧
    scaleLevel levelWarn = 8 ∧ scaleLevel levelError = 16 ∧
    levelSegment 1 envW (.base ⟨levelInfo, none, FullDateFormat, false, true⟩)
      ⟨0, levelDebug, "", 0, []⟩ = "<2> " ∧
    levelSegment 1 envW (.base ⟨levelInfo, none, FullDateFormat, false, true⟩)
      ⟨0, levelInfo, "", 0, []⟩ = "<4> " ∧
    levelSegment 1 envW (.base ⟨levelInfo, none, FullDateFormat, false, true⟩)
      ⟨0, levelWarn, "", 0, []⟩ = "<8> " ∧
    levelSegment 1 envW (.base ⟨levelInfo, none, FullDateFormat, false, true⟩)
      ⟨0, levelError, "", 0, []⟩ = "<16> " := by
  have hdiff : (levelError : ℝ) - (levelWarn : ℝ) = 4 := by
    norm_num [levelWarn, levelError]
  have hoff : (1 : ℝ) - (levelDebug : ℝ) / ((levelError : ℝ) - (levelWarn : ℝ)) = 2 := by
    norm_num [levelDebug, levelWarn, levelError]
  have hs : ∀ l : Int, (n : ℕ) → ((l : ℝ) / ((levelError : ℝ) - (levelWarn : ℝ)) +
      (1 - (levelDebug : ℝ) / ((levelError : ℝ) - (levelWarn : ℝ))) = ((n : ℕ) : ℝ)) →
      scaleLevel l = 2 ^ n := by
    intro l n he
    unfold scaleLevel
    rw [he, Real.rpow_natCast]
  have hseg : ∀ l : Int, (s : String) → pow2String (scaleLevelExp l) = s →
      levelSegment 1 envW (.base ⟨levelInfo, none, FullDateFormat, false, true⟩)
        ⟨0, l, "", 0, []⟩ = "<" ++ s ++ "> " := by
    intro l s hp
    simp [levelSegment, writeLevel, getReplaceAttr, baseConfig, identityAttribute,
      isZeroAttr, getNumericSeverity, hp, valueString, JsonStream.writeRaw]
  refine ⟨?_, ?_, ?_, ?_, ?_, ?_, ?_, ?_⟩
  · have := hs levelDebug 1 (by norm_num [levelDebug, levelWarn, levelError])
    norm_num at this
    exact this
  · have := hs levelInfo 2 (by norm_num [levelInfo, levelDebug, levelWarn, levelError])
    norm_num at this
    exact this
  · have := hs levelWarn 3 (by norm_num [levelDebug, levelWarn, levelError])
    norm_num at this
    exact this
  · have := hs levelError 4 (by norm_num [levelDebug, levelWarn, levelError])
    norm_num at this
    exact this
  · refine hseg levelDebug "2" ?_
    have h3 : scaleLevelExp levelDebug = 1 := by
      norm_num [scaleLevelExp, levelDebug, levelWarn, levelError]
    rw [h3]
    norm_num [pow2String, floatString]
    rfl
  · refine hseg levelInfo "4" ?_
    have h3 : scaleLevelExp levelInfo = 2 := by
      norm_num [scaleLevelExp, levelInfo, levelDebug, levelWarn, levelError]
    rw [h3]
    norm_num [pow2String, floatString]
    rfl
  · refine hseg levelWarn "8" ?_
    have h3 : scaleLevelExp levelWarn = 3 := by
      norm_num [scaleLevelExp, levelDebug, levelWarn, levelError]
    rw [h3]
    norm_num [pow2String, floatString]
    rfl
  · refine hseg levelError "16" ?_
    have h3 : scaleLevelExp levelError = 4 := by
      norm_num [scaleLevelExp, levelDebug, levelWarn, levelError]
    rw [h3]
    norm_num [pow2String, floatString]
    rfl

end Nblog
